import Mathlib

/-!
Verification of the Smart Parking Management & Analytics Platform core.

The development shallowly embeds the parking backend:
* `app/models/parking.py` — zone state and the derived `available_spots`;
* `app/services/__init__.py` — `ParkingService.record_event` over a store of
  zones (modelled as an association list keyed by zone id) plus the list of
  persisted events;
* `app/ml/occupancy_analyzer.py` — EMA smoothing, rolling z-score anomaly
  detection, Poisson arrival-rate estimation and occupancy forecasting
  (floats are modelled as exact rationals/reals; the final `round(x, k)`
  presentation calls of the Python code are omitted, they do not affect any
  property stated here);
* `app/api/websocket.py` — `ConnectionManager.broadcast` with per-connection
  failure pruning (a send outcome is modelled as a boolean per connection).
-/

namespace SmartParking

/-! ### Data model: `app/models/parking.py` -/

/-- A parking zone row: `id`, `total_spots`, `occupied_spots`
(SQLAlchemy `Integer` columns, modelled as `Int`). -/
structure ParkingZone where
  id : Nat
  total_spots : Int
  occupied_spots : Int
  deriving DecidableEq, Repr

/-- The `available_spots` property: `max(0, self.total_spots - self.occupied_spots)`. -/
def ParkingZone.available_spots (z : ParkingZone) : Int :=
  max 0 (z.total_spots - z.occupied_spots)

/-- A parking event as recorded by the service (only the fields the claims
mention: the referenced zone id and the event kind string). -/
structure ParkingEvent where
  zone_id : Nat
  event_type : String
  deriving DecidableEq, Repr

/-- The state `ParkingService` mutates: the zone table (association list keyed
by zone id) and the append-only table of persisted events. -/
structure ServiceState where
  zones : List (Nat × ParkingZone)
  events : List ParkingEvent
  deriving DecidableEq, Repr

/-! ### `ParkingService`: `app/services/__init__.py` -/

/-- The lookup `select(ParkingZone).where(ParkingZone.id == zone_id)` used by
`ParkingService.get_zone`. -/
def get_zone (s : ServiceState) (zone_id : Nat) : Option ParkingZone :=
  (s.zones.find? (fun p => p.1 = zone_id)).map Prod.snd

/-- The occupancy update of `record_event` (lines 100-103):
entry clamps to `min(occupied + 1, total)`, exit clamps to
`max(occupied - 1, 0)`, any other kind leaves the zone unchanged. -/
def apply_occupancy (z : ParkingZone) (event_type : String) : ParkingZone :=
  if event_type = "entry" then
    { z with occupied_spots := min (z.occupied_spots + 1) z.total_spots }
  else if event_type = "exit" then
    { z with occupied_spots := max (z.occupied_spots - 1) 0 }
  else
    z

/-- `ParkingService.record_event`: fail with an error if the zone does not
exist (before any mutation); otherwise persist the event and apply the
clamped occupancy update to the referenced zone. -/
def record_event (s : ServiceState) (e : ParkingEvent) : Except String ServiceState :=
  match get_zone s e.zone_id with
  | none => .error ("Zone " ++ toString e.zone_id ++ " not found")
  | some _ =>
      .ok { zones := s.zones.map
              (fun p => if p.1 = e.zone_id then (p.1, apply_occupancy p.2 e.event_type) else p),
            events := s.events ++ [e] }

/-- One ingestion step as seen by the caller: a rejected event leaves the
state untouched. -/
def step_event (s : ServiceState) (e : ParkingEvent) : ServiceState :=
  match record_event s e with
  | .ok s2 => s2
  | .error _ => s

/-- The zone-store invariant: `0 ≤ occupied_spots ≤ total_spots` for every
zone in the table. -/
def ZonesInv (s : ServiceState) : Prop :=
  ∀ p ∈ s.zones, 0 ≤ p.2.occupied_spots ∧ p.2.occupied_spots ≤ p.2.total_spots

instance (s : ServiceState) : Decidable (ZonesInv s) := by
  unfold ZonesInv; infer_instance

lemma apply_occupancy_bounds (z : ParkingZone) (et : String)
    (h0 : 0 ≤ z.occupied_spots) (h1 : z.occupied_spots ≤ z.total_spots) :
    0 ≤ (apply_occupancy z et).occupied_spots ∧
      (apply_occupancy z et).occupied_spots ≤ (apply_occupancy z et).total_spots := by
  unfold apply_occupancy
  split
  · constructor
    · simp only; omega
    · simp only [le_min_iff]; omega
  · split
    · constructor
      · simp only [le_max_iff]; omega
      · simp only; omega
    · exact ⟨h0, h1⟩

lemma record_event_ok_inv {s : ServiceState} {e : ParkingEvent} {s2 : ServiceState}
    (hs : ZonesInv s) (h : record_event s e = .ok s2) : ZonesInv s2 := by
  unfold record_event at h
  cases hz : get_zone s e.zone_id with
  | none => rw [hz] at h; cases h
  | some z =>
      rw [hz] at h
      cases h
      intro p hp
      simp only [List.mem_map] at hp
      obtain ⟨q, hq, rfl⟩ := hp
      have hqb := hs q hq
      split
      · exact apply_occupancy_bounds q.2 e.event_type hqb.1 hqb.2
      · exact hqb

lemma step_event_inv {s : ServiceState} (e : ParkingEvent) (hs : ZonesInv s) :
    ZonesInv (step_event s e) := by
  unfold step_event
  cases h : record_event s e with
  | ok s2 => exact record_event_ok_inv hs h
  | error msg => exact hs

/-- Claim C1: starting from any state in which every zone satisfies
`0 ≤ occupied_spots ≤ total_spots`, applying any finite sequence of events
through `record_event` (a rejected event leaving the state unchanged)
preserves `0 ≤ occupied_spots ≤ total_spots` after every step, i.e. at every
state of the trace. -/
theorem record_event_seq_preserves_bounds (s : ServiceState) (hs : ZonesInv s)
    (es : List ParkingEvent) :
    ∀ t ∈ List.scanl step_event s es, ZonesInv t := by
  induction es generalizing s with
  | nil =>
      intro t ht
      simp only [List.scanl_nil, List.mem_singleton] at ht
      exact ht ▸ hs
  | cons e es ih =>
      intro t ht
      simp only [List.scanl_cons, List.singleton_append, List.mem_cons] at ht
      rcases ht with rfl | ht
      · exact hs
      · exact ih (step_event s e) (step_event_inv e hs) t ht

/-- Witness for C1: a two-spot zone at occupancy 1 stays within bounds after
the event sequence entry, entry (clamped at the cap), exit. -/
theorem record_event_seq_preserves_bounds_witness :
    ZonesInv (step_event (step_event (step_event
      ⟨[(1, ⟨1, 2, 1⟩)], []⟩ ⟨1, "entry"⟩) ⟨1, "entry"⟩) ⟨1, "exit"⟩) :=
  record_event_seq_preserves_bounds ⟨[(1, ⟨1, 2, 1⟩)], []⟩ (by decide)
    [⟨1, "entry"⟩, ⟨1, "entry"⟩, ⟨1, "exit"⟩] _ (by decide)

lemma find?_key_map (l : List (Nat × ParkingZone)) (zid : Nat)
    (f : ParkingZone → ParkingZone) :
    ((l.map (fun p => if p.1 = zid then (p.1, f p.2) else p)).find?
        (fun p => p.1 = zid))
      = (l.find? (fun p => p.1 = zid)).map (fun p => (p.1, f p.2)) := by
  induction l with
  | nil => rfl
  | cons q t ih =>
      by_cases h : q.1 = zid
      · simp [List.find?_cons_of_pos, h]
      · simp only [List.map_cons]
        rw [if_neg h, List.find?_cons_of_neg _ (by simpa using h),
          List.find?_cons_of_neg _ (by simpa using h), ih]

lemma get_zone_record_event_ok {s : ServiceState} {e : ParkingEvent} {z : ParkingZone}
    (hz : get_zone s e.zone_id = some z) :
    record_event s e = .ok (step_event s e) ∧
      get_zone (step_event s e) e.zone_id = some (apply_occupancy z e.event_type) := by
  unfold step_event record_event
  rw [hz]
  refine ⟨rfl, ?_⟩
  unfold get_zone at hz
  show ((s.zones.map
      (fun p => if p.1 = e.zone_id then (p.1, apply_occupancy p.2 e.event_type) else p)).find?
        (fun p => p.1 = e.zone_id)).map Prod.snd = some (apply_occupancy z e.event_type)
  rw [find?_key_map s.zones e.zone_id (fun z2 => apply_occupancy z2 e.event_type)]
  cases hf : s.zones.find? (fun p => p.1 = e.zone_id) with
  | none => rw [hf] at hz; cases hz
  | some q =>
      rw [hf] at hz
      rw [Option.map_some'] at hz
      cases hz
      rfl

/-- Claim C2: for an existing zone, an entry event at `occupied = total`
returns successfully and leaves the zone unchanged at `total`, and an exit
event at `occupied = 0` returns successfully and leaves the zone unchanged
at `0` (clamp-not-reject). -/
theorem record_event_clamps_at_bounds (s : ServiceState) (e : ParkingEvent)
    (z : ParkingZone) (hz : get_zone s e.zone_id = some z) :
    (e.event_type = "entry" → z.occupied_spots = z.total_spots →
      record_event s e = .ok (step_event s e) ∧
        get_zone (step_event s e) e.zone_id = some z) ∧
    (e.event_type = "exit" → z.occupied_spots = 0 →
      record_event s e = .ok (step_event s e) ∧
        get_zone (step_event s e) e.zone_id = some z) := by
  have h := get_zone_record_event_ok hz
  constructor
  · intro het hfull
    refine ⟨h.1, ?_⟩
    rw [h.2]
    have : apply_occupancy z e.event_type = z := by
      unfold apply_occupancy
      rw [if_pos het]
      have hmin : min (z.occupied_spots + 1) z.total_spots = z.occupied_spots := by
        omega
      rw [hmin]
    rw [this]
  · intro het hempty
    refine ⟨h.1, ?_⟩
    rw [h.2]
    have : apply_occupancy z e.event_type = z := by
      unfold apply_occupancy
      rw [if_neg (by rw [het]; decide), if_pos het]
      have hmax : max (z.occupied_spots - 1) 0 = z.occupied_spots := by
        omega
      rw [hmax]
    rw [this]

/-- Witness for C2: an entry on a full three-spot zone succeeds and leaves
the zone at occupancy 3. -/
theorem record_event_clamps_at_bounds_witness :
    record_event ⟨[(1, ⟨1, 3, 3⟩)], []⟩ ⟨1, "entry"⟩
        = .ok (step_event ⟨[(1, ⟨1, 3, 3⟩)], []⟩ ⟨1, "entry"⟩) ∧
      get_zone (step_event ⟨[(1, ⟨1, 3, 3⟩)], []⟩ ⟨1, "entry"⟩) 1 = some ⟨1, 3, 3⟩ :=
  (record_event_clamps_at_bounds ⟨[(1, ⟨1, 3, 3⟩)], []⟩ ⟨1, "entry"⟩ ⟨1, 3, 3⟩
    (by decide)).1 rfl rfl

/-- Claim C3: an event referencing a zone id absent from the store is
rejected with an error raised before any mutation: `record_event` returns
the `Zone ... not found` error and the state (zone table and event table) is
unchanged. -/
theorem record_event_unknown_zone_rejects (s : ServiceState) (e : ParkingEvent)
    (h : get_zone s e.zone_id = none) :
    record_event s e = .error ("Zone " ++ toString e.zone_id ++ " not found") ∧
      step_event s e = s := by
  unfold step_event record_event
  rw [h]
  exact ⟨rfl, rfl⟩

/-- Witness for C3: an event for zone 9 against a store holding only zone 1
is rejected and mutates nothing. -/
theorem record_event_unknown_zone_rejects_witness :
    record_event ⟨[(1, ⟨1, 3, 0⟩)], []⟩ ⟨9, "entry"⟩
        = .error ("Zone " ++ toString 9 ++ " not found") ∧
      step_event ⟨[(1, ⟨1, 3, 0⟩)], []⟩ ⟨9, "entry"⟩ = ⟨[(1, ⟨1, 3, 0⟩)], []⟩ :=
  record_event_unknown_zone_rejects ⟨[(1, ⟨1, 3, 0⟩)], []⟩ ⟨9, "entry"⟩ (by decide)

/-- Claim C10: the derived `available_spots` is `max(0, total - occupied)`:
it equals `total_spots - occupied_spots` whenever `occupied ≤ total`, equals
`0` whenever `occupied > total`, and is never negative. -/
theorem available_spots_clamped (z : ParkingZone) :
    (z.occupied_spots ≤ z.total_spots →
      z.available_spots = z.total_spots - z.occupied_spots) ∧
    (z.total_spots < z.occupied_spots → z.available_spots = 0) ∧
    0 ≤ z.available_spots := by
  unfold ParkingZone.available_spots
  refine ⟨fun h => ?_, fun h => ?_, le_max_left 0 _⟩
  · rw [max_eq_right]; omega
  · rw [max_eq_left]; omega

/-- Witness for C10: a zone with 5 total spots and 9 occupied reports 0
available spots, not a negative number. -/
theorem available_spots_clamped_witness :
    ParkingZone.available_spots ⟨1, 5, 9⟩ = 0 ∧
      0 ≤ ParkingZone.available_spots ⟨1, 5, 9⟩ :=
  ⟨(available_spots_clamped ⟨1, 5, 9⟩).2.1 (by decide),
   (available_spots_clamped ⟨1, 5, 9⟩).2.2⟩

/-! ### `OccupancyAnalyzer.compute_ema`: `app/ml/occupancy_analyzer.py` -/

/-- The analyzer default `self.ema_alpha = 0.3`. -/
def ema_alpha : ℚ := 3 / 10

/-- The analyzer default `self.anomaly_threshold = 2.5`. -/
def anomaly_threshold : ℚ := 5 / 2

/-- The argument resolution `a = alpha or self.ema_alpha` of `compute_ema`:
in Python both `alpha=None` and the falsy `alpha=0` select the default. -/
def resolve_alpha (alpha : Option ℚ) : ℚ :=
  match alpha with
  | none => ema_alpha
  | some a => if a = 0 then ema_alpha else a

/-- The recurrence loop of `compute_ema`: given the previous EMA value,
each element `x` contributes `a * x + (1 - a) * prev`. -/
def ema_loop (a : ℚ) (prev : ℚ) : List ℚ → List ℚ
  | [] => []
  | x :: xs =>
      let e := a * x + (1 - a) * prev
      e :: ema_loop a e xs

/-- `OccupancyAnalyzer.compute_ema`: empty input gives empty output,
otherwise `ema[0] = data[0]` and the recurrence applies to the rest. -/
def compute_ema (data : List ℚ) (alpha : Option ℚ) : List ℚ :=
  let a := resolve_alpha alpha
  match data with
  | [] => []
  | x :: xs => x :: ema_loop a x xs

lemma ema_loop_one (prev : ℚ) (xs : List ℚ) : ema_loop 1 prev xs = xs := by
  induction xs generalizing prev with
  | nil => rfl
  | cons x xs ih => simp [ema_loop, ih]

/-- Claim C4 fails on the code: `compute_ema` resolves its smoothing factor
with the Python-falsy test `alpha or self.ema_alpha`, so the argument
`alpha = 0` silently falls back to the default `0.3`. On the failing input
`data = [0, 1]`, `alpha = 0` the code returns `[0, 3/10]`, whereas the claim
requires every element after index 0 to equal `data[0] = 0`. The `alpha = 1`
identity half of the claim does hold, as the last conjunct records. -/
theorem compute_ema_alpha_zero_divergence :
    compute_ema [0, 1] (some 0) = [0, 3 / 10] ∧ (3 / 10 : ℚ) ≠ 0 ∧
      ∀ data : List ℚ, compute_ema data (some 1) = data := by
  have hra : resolve_alpha (some 0) = 3 / 10 := by
    simp [resolve_alpha, ema_alpha]
  have hra1 : resolve_alpha (some 1) = 1 := by
    simp [resolve_alpha]
  refine ⟨?_, by norm_num, fun data => ?_⟩
  · show (0 : ℚ) :: ema_loop (resolve_alpha (some 0)) 0 [1] = [0, 3 / 10]
    rw [hra]
    simp [ema_loop]
  · cases data with
    | nil => rfl
    | cons x xs =>
        show x :: ema_loop (resolve_alpha (some 1)) x xs = x :: xs
        rw [hra1, ema_loop_one]

/-! ### `ConnectionManager`: `app/api/websocket.py` -/

/-- The hub state: the set of live connections (`self.active_connections`,
a Python set, modelled as the list of its elements). -/
structure ConnectionManager (α : Type) where
  active_connections : List α
  deriving DecidableEq, Repr

/-- The delivery loop of `broadcast`: attempt `send_json` on every live
connection, collecting the successful deliveries and the `dead` set of
connections whose send raised (`send c = false`). -/
def broadcast_loop (send : α → Bool) : List α → List α × List α
  | [] => ([], [])
  | c :: rest =>
      let r := broadcast_loop send rest
      if send c then (c :: r.1, r.2) else (r.1, c :: r.2)

/-- `ConnectionManager.broadcast`: attempt delivery to every live connection,
then prune the failed ones (`self.active_connections -= dead`). The function
is total: no delivery failure is surfaced to the caller. Returns the updated
manager together with the connections that received the message. -/
def broadcast [DecidableEq α] (send : α → Bool) (m : ConnectionManager α) :
    ConnectionManager α × List α :=
  let r := broadcast_loop send m.active_connections
  (⟨m.active_connections.filter (fun c => ¬ (c ∈ r.2))⟩, r.1)

lemma broadcast_loop_eq (send : α → Bool) (l : List α) :
    broadcast_loop send l = (l.filter send, l.filter (fun c => ! send c)) := by
  induction l with
  | nil => rfl
  | cons c rest ih =>
      unfold broadcast_loop
      rw [ih]
      cases h : send c <;> simp [List.filter, h]

/-- Claim C9: `broadcast` attempts delivery to every live connection; every
connection whose send succeeds receives the message and stays in the live
set, every connection whose send fails is removed from the live set and no
failure reaches the caller (`broadcast` is a total function). -/
theorem broadcast_isolates_failures {α : Type} [DecidableEq α]
    (m : ConnectionManager α) (send : α → Bool) (c : α)
    (hc : c ∈ m.active_connections) :
    (send c = true → c ∈ (broadcast send m).2 ∧
        c ∈ (broadcast send m).1.active_connections) ∧
    (send c = false → c ∉ (broadcast send m).1.active_connections ∧
        c ∉ (broadcast send m).2) := by
  unfold broadcast
  rw [broadcast_loop_eq]
  constructor
  · intro hs
    constructor
    · exact List.mem_filter.mpr ⟨hc, hs⟩
    · refine List.mem_filter.mpr ⟨hc, ?_⟩
      simp only [decide_eq_true_eq]
      intro hdead
      have := (List.mem_filter.mp hdead).2
      rw [hs] at this
      simp at this
  · intro hs
    constructor
    · intro hmem
      have := (List.mem_filter.mp hmem).2
      simp only [decide_eq_true_eq] at this
      exact this (List.mem_filter.mpr ⟨hc, by rw [hs]; rfl⟩)
    · intro hmem
      have := (List.mem_filter.mp hmem).2
      rw [hs] at this
      simp at this

/-- Witness for C9: a hub with a healthy connection `1` and a failing
connection `2` delivers to `1` and keeps it live, and removes only `2`. -/
theorem broadcast_isolates_failures_witness :
    (1 ∈ (broadcast (fun c => c == 1) (⟨[1, 2]⟩ : ConnectionManager ℕ)).2 ∧
       1 ∈ (broadcast (fun c => c == 1)
            (⟨[1, 2]⟩ : ConnectionManager ℕ)).1.active_connections) ∧
    (2 ∉ (broadcast (fun c => c == 1)
            (⟨[1, 2]⟩ : ConnectionManager ℕ)).1.active_connections ∧
       2 ∉ (broadcast (fun c => c == 1) (⟨[1, 2]⟩ : ConnectionManager ℕ)).2) :=
  ⟨(broadcast_isolates_failures ⟨[1, 2]⟩ (fun c => c == 1) 1 (by decide)).1 (by decide),
   (broadcast_isolates_failures ⟨[1, 2]⟩ (fun c => c == 1) 2 (by decide)).2 (by decide)⟩

/-! ### `OccupancyAnalyzer.forecast_occupancy` -/

/-- Arithmetic mean of a list of rationals (`np.mean`). -/
def qmean (l : List ℚ) : ℚ := l.sum / l.length

/-- Population variance of a list of rationals: the square of `np.std`. -/
def qvariance (l : List ℚ) : ℚ := ((l.map (fun x => (x - qmean l) ^ 2)).sum) / l.length

/-- `np.std`: the population standard deviation. -/
noncomputable def npStd (l : List ℚ) : ℝ := Real.sqrt (qvariance l)

lemma npStd_nonneg (l : List ℚ) : 0 ≤ npStd l := Real.sqrt_nonneg _

/-- The rates observed at clock hour `h`: the grouping loop
`for rate, ts in zip(rates, times)` keyed by `ts.hour`. A timestamp is
modelled as a whole number of hours since an epoch, so `.hour` is reduction
mod 24. -/
def values_at_hour (rates : List ℚ) (timestamps : List ℕ) (h : ℕ) : List ℚ :=
  ((rates.zip timestamps).filter (fun p => p.2 % 24 = h)).map Prod.fst

/-- `hourly_avg.get(hour, 50.0)`: the per-hour mean, `50.0` for a clock hour
with no samples. -/
def hourly_avg (rates : List ℚ) (timestamps : List ℕ) (h : ℕ) : ℚ :=
  let vs := values_at_hour rates timestamps h
  if vs = [] then 50 else qmean vs

/-- `hourly_std.get(hour, 10.0)`: the per-hour `np.std`, defaulting to `10.0`
for a clock hour with fewer than two samples. -/
noncomputable def hourly_std (rates : List ℚ) (timestamps : List ℕ) (h : ℕ) : ℝ :=
  let vs := values_at_hour rates timestamps h
  if vs.length ≤ 1 then 10 else npStd vs

lemma hourly_std_nonneg (rates : List ℚ) (timestamps : List ℕ) (h : ℕ) :
    0 ≤ hourly_std rates timestamps h := by
  unfold hourly_std
  by_cases hl : (values_at_hour rates timestamps h).length ≤ 1
  · simp [hl]
  · simp [hl, npStd_nonneg]

/-- The least-squares slope `np.polyfit(x, ys, 1)[0]` with `x = 0, 1, …`. -/
def polyfit_slope (ys : List ℚ) : ℚ :=
  let n : ℚ := ys.length
  let xs : List ℚ := (List.range ys.length).map (fun i => (i : ℚ))
  let sx := xs.sum
  let sy := ys.sum
  let sxy := ((xs.zip ys).map (fun p => p.1 * p.2)).sum
  let sxx := (xs.map (fun x => x ^ 2)).sum
  (n * sxy - sx * sy) / (n * sxx - sx ^ 2)

/-- The trend slope of `forecast_occupancy`: fit on `rates[-6:]` (the whole
list when it has fewer than 6 entries), `0.0` when fewer than two points. -/
def forecast_slope (rates : List ℚ) : ℚ :=
  let recent := if 6 ≤ rates.length then rates.drop (rates.length - 6) else rates
  if 2 ≤ recent.length then polyfit_slope recent else 0

/-- The `ForecastResult` dataclass; future timestamps are whole hours. -/
structure ForecastResult where
  timestamps : List ℕ
  predicted_occupancy : List ℝ
  confidence_lower : List ℝ
  confidence_upper : List ℝ

/-- One step of the forecast loop for loop index `i = 0 … horizon-1`, at
clock hour `(now + timedelta(hours=i+1)).hour`: the seasonal baseline plus
the decayed trend `slope·(i+1)·0.5`, clipped to `[0, 100]`, with the
confidence band `±std·1.96` clipped to `[0, 100]` on each side. Returns
`(predicted, lower, upper)`. -/
noncomputable def forecast_point (rates : List ℚ) (timestamps : List ℕ)
    (now : ℕ) (i : ℕ) : ℝ × ℝ × ℝ :=
  let h := (now + i + 1) % 24
  let baseline : ℝ := (hourly_avg rates timestamps h : ℚ)
  let trend_adj : ℝ := (forecast_slope rates : ℚ) * (i + 1) * (1 / 2)
  let predicted : ℝ := max 0 (min (baseline + trend_adj) 100)
  let ci_width : ℝ := hourly_std rates timestamps h * (196 / 100)
  (predicted, max 0 (predicted - ci_width), min 100 (predicted + ci_width))

/-- `OccupancyAnalyzer.forecast_occupancy`: with fewer than 24 historical
points, a flat forecast at the last observed rate (`50.0` with no history)
with a constant `±15` band clipped to `[0, 100]`; otherwise the seasonal
average plus decayed trend per future hour. `now` is the current clock time
in whole hours; the `round(., 2)` presentation of the returned floats is
omitted. -/
noncomputable def forecast_occupancy (historical_rates : List ℚ)
    (timestamps : List ℕ) (now : ℕ) (horizon_hours : ℕ) : ForecastResult :=
  if historical_rates.length < 24 then
    let current_rate : ℚ := historical_rates.getLastD 50
    { timestamps := (List.range horizon_hours).map (fun i => now + i),
      predicted_occupancy := List.replicate horizon_hours (current_rate : ℝ),
      confidence_lower := List.replicate horizon_hours (max 0 ((current_rate : ℝ) - 15)),
      confidence_upper := List.replicate horizon_hours (min 100 ((current_rate : ℝ) + 15)) }
  else
    { timestamps := (List.range horizon_hours).map (fun i => now + i + 1),
      predicted_occupancy := (List.range horizon_hours).map
        (fun i => (forecast_point historical_rates timestamps now i).1),
      confidence_lower := (List.range horizon_hours).map
        (fun i => (forecast_point historical_rates timestamps now i).2.1),
      confidence_upper := (List.range horizon_hours).map
        (fun i => (forecast_point historical_rates timestamps now i).2.2) }

/-- Claim C7: with fewer than 24 historical rates the forecast is flat —
every horizon step predicts the last input rate (`50.0` when the input is
empty) with lower bound exactly `max(0, rate − 15)` and upper bound exactly
`min(100, rate + 15)`. -/
theorem forecast_low_data_flat (rates : List ℚ) (ts : List ℕ) (now : ℕ)
    (horizon : ℕ) (h : rates.length < 24) :
    (forecast_occupancy rates ts now horizon).predicted_occupancy
        = List.replicate horizon ((rates.getLastD 50 : ℚ) : ℝ) ∧
      (forecast_occupancy rates ts now horizon).confidence_lower
        = List.replicate horizon (max 0 (((rates.getLastD 50 : ℚ) : ℝ) - 15)) ∧
      (forecast_occupancy rates ts now horizon).confidence_upper
        = List.replicate horizon (min 100 (((rates.getLastD 50 : ℚ) : ℝ) + 15)) := by
  unfold forecast_occupancy
  rw [if_pos h]
  exact ⟨rfl, rfl, rfl⟩

/-- Witness for C7: with the single historical rate 60 and horizon 2 the
forecast is the flat pair `[60, 60]` with band `[45, 75]`. -/
theorem forecast_low_data_flat_witness :
    (forecast_occupancy [60] [] 0 2).predicted_occupancy
        = List.replicate 2 ((([60].getLastD 50 : ℚ) : ℝ)) ∧
      (forecast_occupancy [60] [] 0 2).confidence_lower
        = List.replicate 2 (max 0 ((([60].getLastD 50 : ℚ) : ℝ) - 15)) ∧
      (forecast_occupancy [60] [] 0 2).confidence_upper
        = List.replicate 2 (min 100 ((([60].getLastD 50 : ℚ) : ℝ) + 15)) :=
  forecast_low_data_flat [60] [] 0 2 (by decide)

lemma getLastD_bounds {rates : List ℚ} (hr : ∀ r ∈ rates, 0 ≤ r ∧ r ≤ 100) :
    0 ≤ rates.getLastD 50 ∧ rates.getLastD 50 ≤ 100 := by
  cases rates with
  | nil => norm_num
  | cons x xs =>
      have hmem : (x :: xs).getLast (by simp) ∈ x :: xs := List.getLast_mem _
      rw [List.getLastD_eq_getLast?, List.getLast?_eq_getLast _ (by simp)]
      exact hr _ hmem

/-- Counterexample to Claim C8 as stated: with the out-of-range historical
rate 150 (fewer than 24 points) the flat forecast predicts 150, while the
upper bound is clipped to 100 — both `predicted ≤ upper` and
`predicted ≤ 100` fail. -/
theorem forecast_bounds_counterexample :
    ¬ ((forecast_occupancy [150] [] 0 1).predicted_occupancy.getD 0 0
        ≤ (forecast_occupancy [150] [] 0 1).confidence_upper.getD 0 0) ∧
      ¬ ((forecast_occupancy [150] [] 0 1).predicted_occupancy.getD 0 0 ≤ 100) := by
  unfold forecast_occupancy
  rw [if_pos (by decide)]
  simp only [List.getLastD, List.replicate, List.getD, List.getElem?_cons_zero,
    Option.getD_some]
  norm_num

/-- Claim C8, amended: for every input whose historical rates all lie in
`[0, 100]`, every point of the forecast satisfies
`lower ≤ predicted ≤ upper` and `0 ≤ predicted ≤ 100` (the unamended claim
fails for rates outside `[0, 100]`, see the counterexample). -/
theorem forecast_bounds_of_rates_in_range (rates : List ℚ) (ts : List ℕ)
    (now : ℕ) (horizon : ℕ) (hr : ∀ r ∈ rates, 0 ≤ r ∧ r ≤ 100)
    (i : ℕ) (hi : i < horizon) :
    (forecast_occupancy rates ts now horizon).confidence_lower.getD i 0
        ≤ (forecast_occupancy rates ts now horizon).predicted_occupancy.getD i 0 ∧
      (forecast_occupancy rates ts now horizon).predicted_occupancy.getD i 0
        ≤ (forecast_occupancy rates ts now horizon).confidence_upper.getD i 0 ∧
      0 ≤ (forecast_occupancy rates ts now horizon).predicted_occupancy.getD i 0 ∧
      (forecast_occupancy rates ts now horizon).predicted_occupancy.getD i 0 ≤ 100 := by
  unfold forecast_occupancy
  by_cases h24 : rates.length < 24
  · rw [if_pos h24]
    simp only
    have hrepl : ∀ (a : ℝ), (List.replicate horizon a).getD i 0 = a := by
      intro a
      rw [List.getD_eq_getElem _ _ (by simpa using hi), List.getElem_replicate]
    rw [hrepl, hrepl, hrepl]
    obtain ⟨h0, h100⟩ := getLastD_bounds hr
    have h0r : (0 : ℝ) ≤ (rates.getLastD 50 : ℚ) := by exact_mod_cast h0
    have h100r : ((rates.getLastD 50 : ℚ) : ℝ) ≤ 100 := by exact_mod_cast h100
    refine ⟨max_le h0r (by linarith), le_min h100r (by linarith), h0r, h100r⟩
  · rw [if_neg h24]
    simp only
    have hmap : ∀ (f : ℕ → ℝ), (((List.range horizon).map f).getD i 0) = f i := by
      intro f
      rw [List.getD_eq_getElem _ _ (by simpa using hi)]
      simp
    rw [hmap, hmap, hmap]
    unfold forecast_point
    simp only
    set b : ℝ := ((hourly_avg rates ts ((now + i + 1) % 24) : ℚ) : ℝ) with hb
    set t : ℝ := ((forecast_slope rates : ℚ) : ℝ) * (i + 1) * (1 / 2) with ht
    set p : ℝ := max 0 (min (b + t) 100) with hp
    have hci : (0 : ℝ) ≤ hourly_std rates ts ((now + i + 1) % 24) * (196 / 100) :=
      mul_nonneg (hourly_std_nonneg _ _ _) (by norm_num)
    have hp0 : (0 : ℝ) ≤ p := le_max_left _ _
    have hp100 : p ≤ 100 := max_le (by norm_num) (min_le_right _ _)
    exact ⟨max_le hp0 (by linarith), le_min hp100 (by linarith), hp0, hp100⟩

/-- Witness for C8: with the in-range historical rate 30 and horizon 1, the
first forecast point satisfies all four bound inequalities. -/
theorem forecast_bounds_of_rates_in_range_witness :
    (forecast_occupancy [30] [] 0 1).confidence_lower.getD 0 0
        ≤ (forecast_occupancy [30] [] 0 1).predicted_occupancy.getD 0 0 ∧
      (forecast_occupancy [30] [] 0 1).predicted_occupancy.getD 0 0
        ≤ (forecast_occupancy [30] [] 0 1).confidence_upper.getD 0 0 ∧
      0 ≤ (forecast_occupancy [30] [] 0 1).predicted_occupancy.getD 0 0 ∧
      (forecast_occupancy [30] [] 0 1).predicted_occupancy.getD 0 0 ≤ 100 :=
  forecast_bounds_of_rates_in_range [30] [] 0 1
    (by intro r hrr; simp only [List.mem_singleton] at hrr; subst hrr; norm_num)
    0 (by decide)

/-! ### `OccupancyAnalyzer.detect_anomalies` -/

/-- The `AnomalyResult` dataclass. -/
structure AnomalyResult where
  is_anomaly : Bool
  z_score : ℝ
  expected_value : ℝ
  actual_value : ℝ
  severity : String

/-- The body of the `detect_anomalies` loop at index `i`: the slice
`window = arr[max(0, i - window_size) : i + 1]` includes the current point;
with fewer than 3 points the result is non-anomalous with
`expected = actual = arr[i]`; otherwise the mean and `np.std` are taken over
the baseline `window[:-1]`, the standard deviation is floored at `1e-6`, and
severity grades `|z|` against 4 and 3, reported only when the 2.5 threshold
is exceeded. -/
noncomputable def anomaly_at (values : List ℚ) (window_size : ℕ) (i : ℕ) :
    AnomalyResult :=
  let window := (values.drop (i - window_size)).take (i + 1 - (i - window_size))
  let x : ℚ := values.getD i 0
  if window.length < 3 then
    ⟨false, 0, (x : ℝ), (x : ℝ), "low"⟩
  else
    let mean : ℚ := if 1 < window.length then qmean window.dropLast else window.headD 0
    let std0 : ℝ := if 1 < window.length then npStd window.dropLast else 1
    let std : ℝ := max std0 (1 / 1000000)
    let z : ℝ := ((x : ℝ) - (mean : ℝ)) / std
    let isAnom : Bool := decide (((anomaly_threshold : ℚ) : ℝ) < |z|)
    let sev : String :=
      if (4 : ℝ) < |z| then "high" else if (3 : ℝ) < |z| then "medium" else "low"
    ⟨isAnom, z, (mean : ℝ), (x : ℝ), if isAnom then sev else "low"⟩

/-- `OccupancyAnalyzer.detect_anomalies`: the rolling z-score pass over all
indices of the input. -/
noncomputable def detect_anomalies (values : List ℚ) (window_size : ℕ) :
    List AnomalyResult :=
  (List.range values.length).map (anomaly_at values window_size)

/-- The causal baseline the claim describes: the prior points
`x[max(0, i - window_size) … i-1]`, excluding the current one. It coincides
with `window[:-1]` of the code (established inside the C5 proof). -/
def baseline_window (values : List ℚ) (window_size i : ℕ) : List ℚ :=
  (values.drop (i - window_size)).take (i - (i - window_size))

/-- The claim-side z-score at index `i`:
`(x[i] − mean(baseline)) / max(std(baseline), 1e-6)`. -/
noncomputable def zscore_at (values : List ℚ) (window_size i : ℕ) : ℝ :=
  ((values.getD i 0 : ℚ) - (qmean (baseline_window values window_size i) : ℚ)) /
    max (npStd (baseline_window values window_size i)) (1 / 1000000)

lemma anomaly_threshold_cast : ((anomaly_threshold : ℚ) : ℝ) = 5 / 2 := by
  unfold anomaly_threshold
  push_cast
  norm_num

lemma detect_anomalies_getD (values : List ℚ) (w i : ℕ) (hi : i < values.length) :
    (detect_anomalies values w).getD i ⟨false, 0, 0, 0, ""⟩ = anomaly_at values w i := by
  unfold detect_anomalies
  rw [List.getD_eq_getElem _ _ (by simpa using hi)]
  simp

/-- Claim C5: at every index `i`, `detect_anomalies` uses only the causal
baseline `x[max(0, i - window_size) … i-1]`: when the baseline has fewer
than 2 points, the result is non-anomalous with
`expected_value = actual_value = x[i]`; otherwise
`z = (x[i] − mean) / max(std, 1e-6)` over the baseline, the point is flagged
anomalous iff `|z| > 2.5`, and severity is high / medium / low as `|z|`
exceeds 4 / 3 / neither. -/
theorem detect_anomalies_rolling_zscore (values : List ℚ) (w i : ℕ)
    (hi : i < values.length) :
    ((baseline_window values w i).length < 2 →
        (detect_anomalies values w).getD i ⟨false, 0, 0, 0, ""⟩
          = ⟨false, 0, ((values.getD i 0 : ℚ) : ℝ), ((values.getD i 0 : ℚ) : ℝ), "low"⟩) ∧
    (2 ≤ (baseline_window values w i).length →
        (((detect_anomalies values w).getD i ⟨false, 0, 0, 0, ""⟩).is_anomaly = true
            ↔ (5 / 2 : ℝ) < |zscore_at values w i|) ∧
          ((detect_anomalies values w).getD i ⟨false, 0, 0, 0, ""⟩).severity
            = (if (4 : ℝ) < |zscore_at values w i| then "high"
               else if (3 : ℝ) < |zscore_at values w i| then "medium" else "low") ∧
          ((detect_anomalies values w).getD i ⟨false, 0, 0, 0, ""⟩).z_score
            = zscore_at values w i ∧
          ((detect_anomalies values w).getD i ⟨false, 0, 0, 0, ""⟩).expected_value
            = ((qmean (baseline_window values w i) : ℚ) : ℝ) ∧
          ((detect_anomalies values w).getD i ⟨false, 0, 0, 0, ""⟩).actual_value
            = ((values.getD i 0 : ℚ) : ℝ)) := by
  have hwl : ((values.drop (i - w)).take (i + 1 - (i - w))).length = i + 1 - (i - w) := by
    simp only [List.length_take, List.length_drop]
    omega
  have hbl : (baseline_window values w i).length = i - (i - w) := by
    unfold baseline_window
    simp only [List.length_take, List.length_drop]
    omega
  have hdrop : ((values.drop (i - w)).take (i + 1 - (i - w))).dropLast
      = baseline_window values w i := by
    rw [List.dropLast_eq_take, hwl, List.take_take]
    unfold baseline_window
    congr 1
    omega
  constructor
  · intro hb
    rw [hbl] at hb
    rw [detect_anomalies_getD values w i hi]
    unfold anomaly_at
    simp only
    rw [hwl, if_pos (by omega)]
  · intro hb
    rw [hbl] at hb
    rw [detect_anomalies_getD values w i hi]
    unfold anomaly_at
    simp only
    rw [hwl, if_neg (by omega), if_pos (by omega), if_pos (by omega), hdrop]
    have hzeq : (((values.getD i 0 : ℚ) : ℝ)
          - ((qmean (baseline_window values w i) : ℚ) : ℝ)) /
            max (npStd (baseline_window values w i)) (1 / 1000000)
        = zscore_at values w i := rfl
    rw [hzeq, anomaly_threshold_cast]
    refine ⟨by simp, ?_, rfl, rfl, rfl⟩
    simp only [decide_eq_true_eq]
    by_cases ha : (5 / 2 : ℝ) < |zscore_at values w i|
    · rw [if_pos ha]
    · rw [if_neg ha,
        if_neg (show ¬ (4 : ℝ) < |zscore_at values w i| from
          fun h4 => ha (lt_trans (by norm_num) h4)),
        if_neg (show ¬ (3 : ℝ) < |zscore_at values w i| from
          fun h3 => ha (lt_trans (by norm_num) h3))]

/-- Witness for C5: at index 1 of `[1, 2, 3]` the baseline `[1]` has a single
point, so the result is non-anomalous with `expected = actual = 2`. -/
theorem detect_anomalies_rolling_zscore_witness :
    (detect_anomalies [1, 2, 3] 24).getD 1 ⟨false, 0, 0, 0, ""⟩
      = ⟨false, 0, (([1, 2, 3].getD 1 0 : ℚ) : ℝ), (([1, 2, 3].getD 1 0 : ℚ) : ℝ), "low"⟩ :=
  (detect_anomalies_rolling_zscore [1, 2, 3] 24 1 (by decide)).1 (by decide)

/-! ### `OccupancyAnalyzer.estimate_arrival_rate` -/

/-- The dictionary returned by `estimate_arrival_rate`; the
`mean_inter_arrival_min` key is present only on the successful branch. -/
structure ArrivalRateResult where
  lam : ℚ
  expected_per_hour : ℚ
  std_dev : ℝ
  mean_inter_arrival_min : Option ℚ

/-- `OccupancyAnalyzer.estimate_arrival_rate` over timestamps in seconds:
fewer than 2 timestamps give the all-zero result; otherwise the timestamps
are sorted, the inter-arrival gaps are taken in minutes, and a zero mean gap
(all timestamps equal) also gives the all-zero result; else
`λ = count / max(elapsed hours, 1/60)` with `std_dev = sqrt(λ)`. -/
noncomputable def estimate_arrival_rate (event_timestamps : List ℚ) :
    ArrivalRateResult :=
  if event_timestamps.length < 2 then ⟨0, 0, 0, none⟩
  else
    let sorted_times := event_timestamps.mergeSort (fun a b => a ≤ b)
    let inter_arrivals := (sorted_times.zip sorted_times.tail).map
      (fun p => (p.2 - p.1) / 60)
    if inter_arrivals = [] ∨ qmean inter_arrivals = 0 then ⟨0, 0, 0, none⟩
    else
      let total_time_hours :=
        max ((sorted_times.getLastD 0 - sorted_times.headD 0) / 3600) (1 / 60)
      let lambda_rate := (event_timestamps.length : ℚ) / total_time_hours
      ⟨lambda_rate, lambda_rate, Real.sqrt (lambda_rate : ℝ),
        some (qmean inter_arrivals)⟩

lemma gaps_sum (l : List ℚ) :
    ((l.zip l.tail).map (fun p => (p.2 - p.1) / 60)).sum
      = (l.getLastD 0 - l.headD 0) / 60 := by
  induction l with
  | nil => simp
  | cons a t ih =>
      cases t with
      | nil => simp
      | cons b t2 =>
          simp only [List.tail_cons, List.zip_cons_cons, List.map_cons,
            List.sum_cons] at ih ⊢
          rw [ih]
          simp only [List.headD_cons, List.getLastD_cons]
          ring

lemma sorted_headD_le {l : List ℚ} (hs : l.Sorted (· ≤ ·)) {x : ℚ} (hx : x ∈ l) :
    l.headD 0 ≤ x := by
  cases l with
  | nil => cases hx
  | cons a t =>
      simp only [List.headD_cons]
      rcases List.mem_cons.mp hx with rfl | hxt
      · exact le_refl x
      · exact (List.sorted_cons.mp hs).1 x hxt

lemma sorted_le_getLastD : ∀ {l : List ℚ}, l.Sorted (· ≤ ·) →
    ∀ x ∈ l, x ≤ l.getLastD 0 := by
  intro l
  induction l with
  | nil => intro _ x hx; cases hx
  | cons a t ih =>
      intro hs x hx
      cases t with
      | nil =>
          simp only [List.mem_singleton] at hx
          subst hx
          simp [List.getLastD_cons]
      | cons b t2 =>
          have hs2 := (List.sorted_cons.mp hs).2
          have hrw : (a :: b :: t2).getLastD 0 = (b :: t2).getLastD 0 := by
            simp [List.getLastD_cons]
          rw [hrw]
          rcases List.mem_cons.mp hx with rfl | hxt
          · exact le_trans ((List.sorted_cons.mp hs).1 b (by simp))
              (ih hs2 b (by simp))
          · exact ih hs2 x hxt

/-- Claim C6, amended: for at least 2 timestamps that are not all equal,
`estimate_arrival_rate` returns `λ = count / max(elapsed hours, 1/60)` with
`expected_per_hour = λ` and `std_dev = √λ`; fewer than 2 timestamps, or a
list whose timestamps are all equal (the code's zero-mean-gap guard), give
the all-zero result. (The unamended claim asserted the `λ` formula also for
all-equal timestamps, refuted by the counterexample.) -/
theorem estimate_arrival_rate_poisson (ts : List ℚ) :
    (2 ≤ ts.length → (∃ a ∈ ts, ∃ b ∈ ts, a ≠ b) →
      (estimate_arrival_rate ts).lam
          = (ts.length : ℚ) /
              max (((ts.mergeSort (fun a b => a ≤ b)).getLastD 0
                - (ts.mergeSort (fun a b => a ≤ b)).headD 0) / 3600) (1 / 60) ∧
        (estimate_arrival_rate ts).expected_per_hour = (estimate_arrival_rate ts).lam ∧
        (estimate_arrival_rate ts).std_dev
          = Real.sqrt ((estimate_arrival_rate ts).lam : ℝ)) ∧
    (ts.length < 2 → estimate_arrival_rate ts = ⟨0, 0, 0, none⟩) ∧
    ((∀ a ∈ ts, ∀ b ∈ ts, a = b) → estimate_arrival_rate ts = ⟨0, 0, 0, none⟩) := by
  refine ⟨?_, ?_, ?_⟩
  · intro h2 hab
    obtain ⟨a, ha, b, hb, hne⟩ := hab
    have hsort : (ts.mergeSort (fun a b => a ≤ b)).Sorted (· ≤ ·) :=
      List.sorted_mergeSort' ts
    have hma : a ∈ ts.mergeSort (fun a b => a ≤ b) := List.mem_mergeSort.mpr ha
    have hmb : b ∈ ts.mergeSort (fun a b => a ≤ b) := List.mem_mergeSort.mpr hb
    have hlen : (ts.mergeSort (fun a b => a ≤ b)).length = ts.length :=
      List.length_mergeSort ts
    have hlt : (ts.mergeSort (fun a b => a ≤ b)).headD 0
        < (ts.mergeSort (fun a b => a ≤ b)).getLastD 0 := by
      rcases lt_or_le ((ts.mergeSort (fun a b => a ≤ b)).headD 0)
        ((ts.mergeSort (fun a b => a ≤ b)).getLastD 0) with h | h
      · exact h
      · exact absurd (le_antisymm
          (le_trans (sorted_le_getLastD hsort a hma)
            (le_trans h (sorted_headD_le hsort hmb)))
          (le_trans (sorted_le_getLastD hsort b hmb)
            (le_trans h (sorted_headD_le hsort hma)))) hne
    have hglen : (((ts.mergeSort (fun a b => a ≤ b)).zip
        (ts.mergeSort (fun a b => a ≤ b)).tail).map
          (fun p => (p.2 - p.1) / 60)).length = ts.length - 1 := by
      simp [List.length_zip, List.length_tail, hlen]
    have hgne : (((ts.mergeSort (fun a b => a ≤ b)).zip
        (ts.mergeSort (fun a b => a ≤ b)).tail).map
          (fun p => (p.2 - p.1) / 60)) ≠ [] := by
      intro hnil
      rw [hnil] at hglen
      simp at hglen
      omega
    have hmean : 0 < qmean (((ts.mergeSort (fun a b => a ≤ b)).zip
        (ts.mergeSort (fun a b => a ≤ b)).tail).map
          (fun p => (p.2 - p.1) / 60)) := by
      unfold qmean
      rw [gaps_sum, hglen]
      apply div_pos
      · apply div_pos
        · linarith
        · norm_num
      · have : 1 ≤ ts.length - 1 := by omega
        exact_mod_cast Nat.lt_of_lt_of_le Nat.zero_lt_one this
    unfold estimate_arrival_rate
    rw [if_neg (by omega)]
    simp only
    rw [if_neg (by push_neg; exact ⟨hgne, ne_of_gt hmean⟩)]
    exact ⟨rfl, rfl, rfl⟩
  · intro h
    unfold estimate_arrival_rate
    rw [if_pos h]
  · intro hall
    by_cases h2 : ts.length < 2
    · unfold estimate_arrival_rate
      rw [if_pos h2]
    · unfold estimate_arrival_rate
      rw [if_neg h2]
      simp only
      have hq : qmean (((ts.mergeSort (fun a b => a ≤ b)).zip
          (ts.mergeSort (fun a b => a ≤ b)).tail).map
            (fun p => (p.2 - p.1) / 60)) = 0 := by
        unfold qmean
        have hz : ∀ x ∈ (((ts.mergeSort (fun a b => a ≤ b)).zip
            (ts.mergeSort (fun a b => a ≤ b)).tail).map
              (fun p => (p.2 - p.1) / 60)), x = 0 := by
          intro x hx
          obtain ⟨p, hp, rfl⟩ := List.mem_map.mp hx
          have hp1 : p.1 ∈ ts.mergeSort (fun a b => a ≤ b) := (List.of_mem_zip hp).1
          have hp2 : p.2 ∈ ts.mergeSort (fun a b => a ≤ b) :=
            List.mem_of_mem_tail (List.of_mem_zip hp).2
          have heq : p.1 = p.2 :=
            hall p.1 (List.mem_mergeSort.mp hp1) p.2 (List.mem_mergeSort.mp hp2)
          rw [← heq]
          ring
        rw [List.sum_eq_zero hz, zero_div]
      rw [if_pos (Or.inr hq)]

/-- Witness for C6: the two distinct timestamps 0 s and 3600 s (one hour
apart) give `λ = 2 / max(1, 1/60) = 2` with `expected = λ`,
`std_dev = √λ`. -/
theorem estimate_arrival_rate_poisson_witness :
    (estimate_arrival_rate [0, 3600]).lam
        = (([0, 3600] : List ℚ).length : ℚ) /
            max (((([0, 3600] : List ℚ).mergeSort (fun a b => a ≤ b)).getLastD 0
              - (([0, 3600] : List ℚ).mergeSort (fun a b => a ≤ b)).headD 0) / 3600)
              (1 / 60) ∧
      (estimate_arrival_rate [0, 3600]).expected_per_hour
        = (estimate_arrival_rate [0, 3600]).lam ∧
      (estimate_arrival_rate [0, 3600]).std_dev
        = Real.sqrt ((estimate_arrival_rate [0, 3600]).lam : ℝ) :=
  (estimate_arrival_rate_poisson [0, 3600]).1 (by norm_num)
    ⟨0, by norm_num, 3600, by norm_num, by norm_num⟩

/-- Counterexample to Claim C6 as stated: two equal timestamps hit the
zero-mean-gap guard and return the all-zero result, while the claim's
formula `λ = count / max(elapsed hours, 1/60)` gives `2 / (1/60) = 120`. -/
theorem estimate_arrival_rate_counterexample :
    (estimate_arrival_rate [5, 5]).lam = 0 ∧
      (2 : ℚ) / max (((5 : ℚ) - 5) / 3600) (1 / 60) = 120 ∧ (0 : ℚ) ≠ 120 := by
  refine ⟨?_, by norm_num, by norm_num⟩
  have hsorted : ([5, 5] : List ℚ).mergeSort (fun a b => a ≤ b) = [5, 5] :=
    List.mergeSort_eq_self (by simp [List.sorted_cons])
  unfold estimate_arrival_rate
  rw [if_neg (by norm_num)]
  simp only
  rw [hsorted]
  have hcond : (List.map (fun p => (p.2 - p.1) / 60)
        (([5, 5] : List ℚ).zip ([5, 5] : List ℚ).tail)) = [] ∨
      qmean (List.map (fun p => (p.2 - p.1) / 60)
        (([5, 5] : List ℚ).zip ([5, 5] : List ℚ).tail)) = 0 := by
    right
    simp [qmean]
  rw [if_pos hcond]

end SmartParking
